import Mathlib

/-!
Verification of the `scripts` repository (media/subtitle command-line helpers).

The Python sources are shallowly embedded here:
* Python strings are `List Char` (wrappers take `String` and use `.data`);
* Python floats are modelled as exact rationals `ℚ` (the scripts only ever
  combine integers, divisions by powers of ten, and sums of such values);
* fallible code (`int(...)`, list indexing, `raise`) returns `Option`/`Except`.

Sections: generic models of the Python builtins used by the scripts, then the
four scripts (`mean_timestamps.py`, `concat_audio_chapters.py`,
`merge_srt_and_txt.py`, `remove-audio-tracks.py`), then the theorems.
-/

/-! ### Models of Python builtins -/

/-- The characters Python's `str.strip` / regex `\s` treat as whitespace
(space, tab, newline, vertical tab, form feed, carriage return). -/
def isPySpace (c : Char) : Bool :=
  c.toNat == 32 || c.toNat == 9 || c.toNat == 10 ||
    c.toNat == 11 || c.toNat == 12 || c.toNat == 13

/-- ASCII decimal digit test (model of the digit class accepted by `int()` and
`str.isdigit`; the scripts only meet ASCII input). -/
def isAsciiDigit (c : Char) : Bool :=
  48 ≤ c.toNat && c.toNat ≤ 57

/-- Model of Python `str.strip()`: drop whitespace from both ends. -/
def pyStrip (l : List Char) : List Char :=
  ((l.dropWhile isPySpace).reverse.dropWhile isPySpace).reverse

/-- Model of Python `str.ljust(w, c)`: right-pad to width `w` with `c`. -/
def pyLjust (l : List Char) (w : Nat) (c : Char) : List Char :=
  l ++ List.replicate (w - l.length) c

/-- Auxiliary for `splitOnChar`: `acc` holds the current field, reversed. -/
def splitOnCharAux (sep : Char) (acc : List Char) : List Char → List (List Char)
  | [] => [acc.reverse]
  | c :: rest =>
    if c = sep then acc.reverse :: splitOnCharAux sep [] rest
    else splitOnCharAux sep (c :: acc) rest

/-- Model of Python `str.split(sep)` for a single-character separator. -/
def splitOnChar (sep : Char) (l : List Char) : List (List Char) :=
  splitOnCharAux sep [] l

/-- Numeric value of a digit character. -/
def digitVal (c : Char) : Nat := c.toNat - 48

/-- Value of a list of ASCII digit characters, most significant first. -/
def natOfDigits (l : List Char) : Nat :=
  l.foldl (fun a c => a * 10 + digitVal c) 0

/-- Digit-string to `Nat`: succeeds exactly on nonempty all-digit strings
(this is also the model of Python `str.isdigit` combined with the value). -/
def digitsToNat? (l : List Char) : Option Nat :=
  if l ≠ [] ∧ l.all isAsciiDigit then some (natOfDigits l) else none

/-- Model of Python `int(str)`: surrounding whitespace is ignored, an optional
sign is allowed, then a nonempty run of digits (underscore separators, which
never occur in this repository's inputs, are not modelled). -/
def pyInt? (l : List Char) : Option Int :=
  match pyStrip l with
  | [] => none
  | c :: rest =>
    if c = '-' then (digitsToNat? rest).map (fun n => -(n : Int))
    else if c = '+' then (digitsToNat? rest).map (fun n => (n : Int))
    else (digitsToNat? (c :: rest)).map (fun n => (n : Int))

/-- Python list indexing `l[i]` with negative-index wraparound; `none` models
an `IndexError`. -/
def pyIndex {α : Type} (l : List α) (i : Int) : Option α :=
  if i < 0 then
    (if 0 ≤ i + l.length ∧ i + l.length < l.length then l.get? (i + l.length).toNat else none)
  else (if i < l.length then l.get? i.toNat else none)

/-- Truncation toward zero, the behaviour of Python `int(float)`. -/
def pyTrunc (q : ℚ) : Int :=
  if 0 ≤ q then Int.floor q else Int.ceil q

/-- Python `%` on numbers (result carries the divisor's sign; here only used
with positive divisors): `a - b * (a // b)` with floor division. -/
def pyMod (a b : ℚ) : ℚ :=
  a - b * ((Int.floor (a / b) : Int) : ℚ)

/-! ### `mean_timestamps.py`: `parse_timestamp` -/

/-- `milliseconds = milliseconds.ljust(3, '0')` followed by `int(milliseconds)`
from `parse_timestamp` (src/mean_timestamps.py lines 25-26 and 31). -/
def fracToMs (ms : List Char) : Option Int :=
  pyInt? (pyLjust ms 3 '0')

/-- The tail of `parse_timestamp` (src/mean_timestamps.py lines 23-32): split
the seconds field on `'.'` (unpacking into two names raises `ValueError` when
there is more than one dot), pad the fraction, convert every field with
`int()` and combine.  `hoursVal` is the already-determined hour value
(`0` when the timestamp had no hour field); a failing conversion anywhere
raises `ValueError`, modelled as `none`. -/
def parseFields (hoursVal : Option Int) (minutes seconds : List Char) : Option ℚ :=
  match splitOnChar '.' seconds with
  | [s] =>
    match hoursVal, pyInt? minutes, pyInt? s with
    | some h, some m, some sec => some ((h * 3600 + m * 60 + sec : Int) : ℚ)
    | _, _, _ => none
  | [s, msp] =>
    match hoursVal, pyInt? minutes, pyInt? s, fracToMs msp with
    | some h, some m, some sec, some msv =>
      some (((h * 3600 + m * 60 + sec : Int) : ℚ) + (msv : ℚ) / 1000)
    | _, _, _, _ => none
  | _ => none

/-- `parse_timestamp` (src/mean_timestamps.py lines 5-32) on a character
list: strip, require a colon, split into 2 or 3 colon-separated fields
(anything else raises `ValueError`, modelled as `none`). -/
def parseTimestampChars (ts : List Char) : Option ℚ :=
  let t := pyStrip ts
  if ':' ∈ t then
    match splitOnChar ':' t with
    | [minutes, seconds] => parseFields (some 0) minutes seconds
    | [hours, minutes, seconds] => parseFields (pyInt? hours) minutes seconds
    | _ => none
  else none

/-- `parse_timestamp` on a `String`. -/
def parse_timestamp (s : String) : Option ℚ :=
  parseTimestampChars s.data

/-! ### `mean_timestamps.py`: `format_timestamp` -/

/-- Decimal digits of `n`, most significant first; `fuel` bounds recursion
depth (any `fuel > n` gives the true digits) so that the definition is
structural and computable by the kernel. -/
def natDigitsAux : Nat → Nat → List Char
  | 0, _ => []
  | fuel + 1, n =>
    if n < 10 then [Nat.digitChar n]
    else natDigitsAux fuel (n / 10) ++ [Nat.digitChar (n % 10)]

/-- Decimal digit string of a natural number. -/
def natDigits (n : Nat) : List Char :=
  natDigitsAux (n + 1) n

/-- Model of Python `f"{n:0wd}"` for a nonnegative value: zero-pad the digit
string of `n` on the left to width `w`. -/
def fmtNatPad (n w : Nat) : List Char :=
  List.replicate (w - (natDigits n).length) '0' ++ natDigits n

/-- Model of Python `f"{i:0wd}"` for an integer (the sign occupies one column
of the field width, as in Python). -/
def fmtIntPad (i : Int) (w : Nat) : List Char :=
  if i < 0 then '-' :: fmtNatPad (-i).toNat (w - 1) else fmtNatPad i.toNat w

/-- `int(seconds // 3600)` from `format_timestamp`
(src/mean_timestamps.py line 36). -/
def fmtHours (q : ℚ) : Int := Int.floor (q / 3600)

/-- `int((seconds % 3600) // 60)` from `format_timestamp` (line 37). -/
def fmtMinutes (q : ℚ) : Int := Int.floor (pyMod q 3600 / 60)

/-- `seconds % 60` from `format_timestamp` (line 38). -/
def fmtSecRem (q : ℚ) : ℚ := pyMod q 60

/-- Model of Python `f"{x:06.3f}"` for a nonnegative value (every call site
passes `seconds % 60 ∈ [0, 60)`): three decimals, zero-padded to width 6.
The binary-float rounding of `%.3f` is modelled as rounding the exact
rational to the nearest integer count of milliseconds. -/
def fmtFixed3 (q : ℚ) : List Char :=
  fmtNatPad ((round (q * 1000)).toNat / 1000) 2 ++
    ('.') :: fmtNatPad ((round (q * 1000)).toNat % 1000) 3

/-- `format_timestamp` (src/mean_timestamps.py lines 34-42): `H:MM:SS.mmm`,
omitting the hour field when `hours > 0` fails. -/
def format_timestamp (q : ℚ) : List Char :=
  if 0 < fmtHours q then
    fmtIntPad (fmtHours q) 1 ++ (':') :: (fmtIntPad (fmtMinutes q) 2 ++ (':') :: fmtFixed3 (fmtSecRem q))
  else
    fmtIntPad (fmtMinutes q) 1 ++ (':') :: fmtFixed3 (fmtSecRem q)

/-! ### `mean_timestamps.py`: `read_timestamps_from_file` -/

/-- Model of `re.match(r'(.+?)\s*-\s*(.+)', line)`: the lazy first group grows
one character at a time; after it, greedy `\s*`, a literal `-`, greedy `\s*`
(backing off just enough to leave the second group nonempty), and the rest.
`acc` is the first group built so far.  Returns the two groups on success. -/
def reFindSplit (acc : List Char) : List Char → Option (List Char × List Char)
  | [] => none
  | c :: rest =>
    match rest.dropWhile isPySpace with
    | '-' :: tail =>
      if tail.dropWhile isPySpace ≠ [] then some (acc ++ [c], tail.dropWhile isPySpace)
      else if tail ≠ [] then some (acc ++ [c], tail.drop (tail.length - 1))
      else reFindSplit (acc ++ [c]) rest
    | _ => reFindSplit (acc ++ [c]) rest

/-- The regex match applied to a whole line. -/
def matchPairLine (l : List Char) : Option (List Char × List Char) :=
  reFindSplit [] l

/-- What `read_timestamps_from_file` does with one (raw) line: silently skip
blank/comment lines, otherwise match and parse, appending a pair on success
and printing a skip report otherwise. -/
inductive LineOutcome : Type
  | skip : LineOutcome
  | pair : ℚ × ℚ → LineOutcome
  | report : LineOutcome
deriving DecidableEq

/-- Per-line behaviour of `read_timestamps_from_file`
(src/mean_timestamps.py lines 48-66). -/
def lineOutcome (line : List Char) : LineOutcome :=
  let l := pyStrip line
  if l = [] ∨ l.head? = some '#' then LineOutcome.skip
  else
    match matchPairLine l with
    | some (t1, t2) =>
      match parseTimestampChars t1, parseTimestampChars t2 with
      | some a, some b => LineOutcome.pair (a, b)
      | _, _ => LineOutcome.report
    | none => LineOutcome.report

/-- Result of reading a pairs file: the parsed timestamp pairs in file order,
and the (1-based line number, stripped content) of every line reported as
skipped. -/
structure ReadResult : Type where
  pairs : List (ℚ × ℚ)
  skipped : List (Nat × List Char)
deriving DecidableEq

/-- The reading loop of `read_timestamps_from_file`, starting at line
number `n`. -/
def readLinesFrom (n : Nat) : List (List Char) → ReadResult
  | [] => ⟨[], []⟩
  | line :: rest =>
    let r := readLinesFrom (n + 1) rest
    match lineOutcome line with
    | LineOutcome.skip => r
    | LineOutcome.pair p => ⟨p :: r.pairs, r.skipped⟩
    | LineOutcome.report => ⟨r.pairs, (n, pyStrip line) :: r.skipped⟩

/-- `read_timestamps_from_file` (src/mean_timestamps.py lines 44-69) on the
file's lines. -/
def read_timestamps_from_file (lines : List (List Char)) : ReadResult :=
  readLinesFrom 1 lines

/-- The pair a line contributes, if any (statement-side view of the loop). -/
def linePair? (l : List Char) : Option (ℚ × ℚ) :=
  match lineOutcome l with
  | LineOutcome.pair p => some p
  | _ => none

/-- The skip report a line contributes, if any. -/
def lineReport? (n : Nat) (l : List Char) : Option (Nat × List Char) :=
  if lineOutcome l = LineOutcome.report then some (n, pyStrip l) else none

/-- Attach 1-based positions starting at `n`. -/
def numberFrom {α : Type} (n : Nat) : List α → List (Nat × α)
  | [] => []
  | a :: as => (n, a) :: numberFrom (n + 1) as

/-- The example pairs file of the specification:
`"00:01.000 - 00:01.500"`, a comment line, a blank line, `"bad line"`. -/
def demoLines : List (List Char) :=
  [("00:01.000 - 00:01.500").data, ("# comment").data, [], ("bad line").data]

/-! ### `mean_timestamps.py`: `analyze_sync_discrepancies` -/

/-- `statistics.mean`. -/
def listMean (l : List ℚ) : ℚ := l.sum / l.length

/-- Insertion into a sorted list (ascending). -/
def insertSorted (x : ℚ) : List ℚ → List ℚ
  | [] => [x]
  | y :: ys => if x ≤ y then x :: y :: ys else y :: insertSorted x ys

/-- Ascending sort, used to model `statistics.median`. -/
def sortQ (l : List ℚ) : List ℚ := l.foldr insertSorted []

/-- `statistics.median`: middle of the sorted list, or the average of the two
middle elements for even length. -/
def listMedian (l : List ℚ) : ℚ :=
  if (sortQ l).length % 2 = 1 then (sortQ l).getD ((sortQ l).length / 2) 0
  else ((sortQ l).getD ((sortQ l).length / 2 - 1) 0 + (sortQ l).getD ((sortQ l).length / 2) 0) / 2

/-- The square of `statistics.stdev` (sample variance, denominator `n - 1`).
`statistics.stdev l < c` for `c > 0` is equivalent to
`sampleVariance l < c ^ 2`, which lets the analyzer stay within `ℚ`. -/
def sampleVariance (l : List ℚ) : ℚ :=
  (l.map (fun x => (x - listMean l) ^ 2)).sum / ((l.length : ℚ) - 1)

/-- The consistency classification printed by the analyzer. -/
inductive SyncClass : Type
  | excellent : SyncClass
  | good : SyncClass
  | inconsistent : SyncClass
deriving DecidableEq

/-- The numbers and verdicts printed by `analyze_sync_discrepancies`;
`stdevSq`/`classification`/`recommendedOffset` are `none` when the script
prints `N/A`, skips the classification, or recommends nothing. -/
structure AnalysisSummary : Type where
  count : Nat
  mean : ℚ
  median : ℚ
  stdevSq : Option ℚ
  classification : Option SyncClass
  recommendedOffset : Option ℚ
deriving DecidableEq

/-- `analyze_sync_discrepancies` (src/mean_timestamps.py lines 71-142):
delays are `source2 - source1`; with no pairs nothing is computed (`none`);
stdev (and the stdev-based classification) only exists for `≥ 2` samples
(the `stdev < 0.001` / `< 0.01` tests are expressed on the variance); with
exactly one sample the single delay itself is recommended. -/
def analyze_sync_discrepancies (scene_changes : List (ℚ × ℚ)) : Option AnalysisSummary :=
  match scene_changes.map (fun p => p.2 - p.1) with
  | [] => none
  | d :: ds =>
    some
      { count := (d :: ds).length
        mean := listMean (d :: ds)
        median := listMedian (d :: ds)
        stdevSq := if 1 < (d :: ds).length then some (sampleVariance (d :: ds)) else none
        classification :=
          if 1 < (d :: ds).length then
            some (if sampleVariance (d :: ds) < (1 / 1000) ^ 2 then SyncClass.excellent
              else if sampleVariance (d :: ds) < (1 / 100) ^ 2 then SyncClass.good
              else SyncClass.inconsistent)
          else none
        recommendedOffset :=
          if 1 < (d :: ds).length then
            (if sampleVariance (d :: ds) < (1 / 100) ^ 2 then some (listMean (d :: ds)) else none)
          else some d }

/-! ### `concat_audio_chapters.py` -/

/-- A chapter as loaded from the `.info.json` metadata
(src/concat_audio_chapters.py lines 103-109). -/
structure Chapter : Type where
  title : List Char
  start_time : ℚ
  end_time : ℚ
deriving DecidableEq

/-- `[f a | a <- l]` when `f` can raise: `none` as soon as any element
fails (a Python list comprehension propagating an exception). -/
def optionMapList {α β : Type} (f : α → Option β) : List α → Option (List β)
  | [] => some []
  | a :: as =>
    match f a with
    | none => none
    | some b =>
      match optionMapList f as with
      | none => none
      | some bs => some (b :: bs)

/-- The selection logic of `select_chapters` (src/concat_audio_chapters.py
lines 17-20), decoupled from the interactive prompt: split the reply on
commas, keep tokens that pass `str.isdigit` after stripping, convert with
`int` and subtract 1, then index the chapter list (an out-of-range index
raises `IndexError`, modelled as `none`). -/
def select_chapters (chapters : List Chapter) (selections : String) : Option (List Chapter) :=
  optionMapList (pyIndex chapters)
    ((splitOnChar ',' selections.data).filterMap (fun tok =>
      if pyStrip tok ≠ [] ∧ (pyStrip tok).all isAsciiDigit then
        some ((natOfDigits (pyStrip tok) : Int) - 1)
      else none))

/-- One `[CHAPTER]` block of the generated ffmpeg metadata file: the
rational cumulative start/end (the `start_time`/`end_time` locals of
`create_ffmpeg_metadata_file`), the emitted integer `START`/`END`
(`int(t * 1000)` in a `1/1000` timebase), and the title. -/
structure MetaChapter : Type where
  q_start : ℚ
  q_end : ℚ
  timebase_den : Nat
  start_ms : Int
  end_ms : Int
  title : List Char
deriving DecidableEq

/-- The chapter loop of `create_ffmpeg_metadata_file`
(src/concat_audio_chapters.py lines 41-53), carrying `cumulative_time`. -/
def metaChapters (cum : ℚ) : List Chapter → List MetaChapter
  | [] => []
  | ch :: rest =>
    { q_start := cum
      q_end := cum + (ch.end_time - ch.start_time)
      timebase_den := 1000
      start_ms := pyTrunc (cum * 1000)
      end_ms := pyTrunc ((cum + (ch.end_time - ch.start_time)) * 1000)
      title := ch.title } :: metaChapters (cum + (ch.end_time - ch.start_time)) rest

/-- `create_ffmpeg_metadata_file` (src/concat_audio_chapters.py lines 37-60)
as the sequence of chapter blocks it writes (`cumulative_time` starts at 0). -/
def create_ffmpeg_metadata_file (selected : List Chapter) : List MetaChapter :=
  metaChapters 0 selected

/-- One entry of the generated concat list: the `file '...'`, `inpoint`,
`outpoint` triple. -/
structure ConcatEntry : Type where
  file : List Char
  inpoint : ℚ
  outpoint : ℚ
deriving DecidableEq

/-- `create_ffmpeg_concat_file` (src/concat_audio_chapters.py lines 62-77)
as the sequence of entries it writes; `absInputPath` stands for
`os.path.abspath(input_file)`, which depends on the environment and is
taken as a parameter. -/
def create_ffmpeg_concat_file (selected : List Chapter) (absInputPath : List Char) :
    List ConcatEntry :=
  selected.map (fun ch => ⟨absInputPath, ch.start_time, ch.end_time⟩)

/-! ### `merge_srt_and_txt.py` -/

/-- One parsed subtitle block: index label, timing line, text. -/
structure SrtBlock : Type where
  num : List Char
  time : List Char
  text : List Char
deriving DecidableEq

/-- The message of the `ValueError` raised on a count mismatch
(src/merge_srt_and_txt.py line 26). -/
def countMismatchMsg : List Char :=
  ("Number of subtitles and translations do not match!").data

/-- `merge_srt_with_translation` (src/merge_srt_and_txt.py lines 23-30):
a count mismatch raises before the output file is opened (so nothing is
written, modelled by `Except.error`); otherwise each block keeps its index
and timing lines and gets the positionally corresponding translation. -/
def merge_srt_with_translation (original_srt : List SrtBlock)
    (translations : List (List Char)) : Except (List Char) (List SrtBlock) :=
  if original_srt.length ≠ translations.length then Except.error countMismatchMsg
  else Except.ok (List.zipWith (fun b t => ⟨b.num, b.time, t⟩) original_srt translations)

/-! ### `remove-audio-tracks.py` -/

/-- Track metadata as extracted from the `mkvmerge -J` probe
(src/remove-audio-tracks.py lines 8-28). -/
structure Track : Type where
  id : Int
  type : List Char
  language : List Char
deriving DecidableEq

/-- The selection `[t["id"] for t in tracks if t["type"] == "audio" and
t["language"] == language]` of `process_files`
(src/remove-audio-tracks.py lines 81-84). -/
def audio_tracks_to_remove (tracks : List Track) (language : List Char) : List Int :=
  (tracks.filter (fun t => t.type = ("audio").data ∧ t.language = language)).map
    (fun t => t.id)

/-- Per-file outcome of `process_files`: skip with a warning (no output
produced), or hand the selected ids to the removal/remux step. -/
inductive FileAction : Type
  | skipWarning : FileAction
  | remove : List Int → FileAction
deriving DecidableEq

/-- The per-file body of `process_files` (src/remove-audio-tracks.py
lines 78-94). -/
def process_file (tracks : List Track) (language : List Char) : FileAction :=
  if audio_tracks_to_remove tracks language = [] then FileAction.skipWarning
  else FileAction.remove (audio_tracks_to_remove tracks language)

/-- `process_files` over the probed track lists of the files found by the
directory walk: each file is handled independently, so every file gets an
action and processing never stops early. -/
def process_files (files : List (List Track)) (language : List Char) : List FileAction :=
  files.map (fun tracks => process_file tracks language)

/-! ### Example data used in concrete theorems -/

/-- Three chapters A, B, C (for the selection examples). -/
def exChapters : List Chapter :=
  [⟨("A").data, 0, 1⟩, ⟨("B").data, 1, 2⟩, ⟨("C").data, 2, 3⟩]

/-- The two probed tracks of the track-removal example. -/
def exTracks : List Track :=
  [⟨1, ("audio").data, ("eng").data⟩, ⟨2, ("audio").data, ("jpn").data⟩]

/-- Three subtitle blocks (for the merge examples). -/
def exBlocks : List SrtBlock :=
  [⟨("1").data, ("t1").data, ("a").data⟩,
   ⟨("2").data, ("t2").data, ("b").data⟩,
   ⟨("3").data, ("t3").data, ("c").data⟩]

/-- Two translation lines (for the merge examples). -/
def exTxts : List (List Char) :=
  [("hello").data, ("world").data]

/-- Two chapters used for the artifact-generation witness. -/
def demoSel : List Chapter :=
  [⟨("A").data, 0, 1⟩, ⟨("B").data, 5, 7⟩]

/-- Every character is an ASCII digit. -/
def digitsOnly (l : List Char) : Prop := ∀ c ∈ l, isAsciiDigit c = true

/-- Shape `M:SS.mmm`: an unpadded nonempty minutes field, a two-digit
seconds field, and exactly three fractional digits. -/
def MSshape (s : List Char) : Prop :=
  ∃ m i f, s = m ++ ((':') :: (i ++ (('.') :: f))) ∧ m ≠ [] ∧ digitsOnly m ∧
    i.length = 2 ∧ digitsOnly i ∧ f.length = 3 ∧ digitsOnly f

/-- Shape `H:MM:SS.mmm`: an unpadded nonempty hour field, a two-digit
minutes field, a two-digit seconds field, and exactly three fractional
digits. -/
def HMSshape (s : List Char) : Prop :=
  ∃ h m i f, s = h ++ ((':') :: (m ++ ((':') :: (i ++ (('.') :: f))))) ∧
    h ≠ [] ∧ digitsOnly h ∧ m.length = 2 ∧ digitsOnly m ∧
    i.length = 2 ∧ digitsOnly i ∧ f.length = 3 ∧ digitsOnly f

/-! ### Theorems for C1 and C10 -/

lemma digits_foldl_shift (l : List Char) (a : Nat) :
    l.foldl (fun a c => a * 10 + digitVal c) a
      = a * 10 ^ l.length + l.foldl (fun a c => a * 10 + digitVal c) 0 := by
  induction l generalizing a with
  | nil => simp
  | cons c t ih =>
    simp only [List.foldl_cons, List.length_cons]
    rw [ih (a * 10 + digitVal c), ih (0 * 10 + digitVal c)]
    ring

lemma natOfDigits_append (l1 l2 : List Char) :
    natOfDigits (l1 ++ l2) = natOfDigits l1 * 10 ^ l2.length + natOfDigits l2 := by
  simp only [natOfDigits, List.foldl_append]
  exact digits_foldl_shift l2 _

lemma natOfDigits_replicate_zero (k : Nat) :
    natOfDigits (List.replicate k '0') = 0 := by
  induction k with
  | zero => simp [natOfDigits]
  | succ n ih =>
    rw [List.replicate_succ, natOfDigits, List.foldl_cons]
    have h : (0 * 10 + digitVal '0') = 0 := by decide
    rw [h]
    exact ih

lemma isAsciiDigit_not_space {c : Char} (h : isAsciiDigit c = true) :
    isPySpace c = false := by
  simp only [isAsciiDigit, Bool.and_eq_true, decide_eq_true_eq] at h
  simp only [isPySpace, Bool.or_eq_false_iff, beq_eq_false_iff_ne, ne_eq]
  omega

lemma dropWhile_eq_self_of_head {l : List Char} (p : Char → Bool)
    (h : ∀ c ∈ l, p c = false) : l.dropWhile p = l := by
  cases l with
  | nil => rfl
  | cons c t =>
    rw [List.dropWhile_cons, h c (List.mem_cons_self c t)]
    simp

lemma pyStrip_eq_self {l : List Char} (h : ∀ c ∈ l, isPySpace c = false) :
    pyStrip l = l := by
  rw [pyStrip, dropWhile_eq_self_of_head _ h, dropWhile_eq_self_of_head, List.reverse_reverse]
  intro c hc
  exact h c (List.mem_reverse.mp hc)

lemma pyStrip_digits {l : List Char} (h : ∀ c ∈ l, isAsciiDigit c = true) :
    pyStrip l = l :=
  pyStrip_eq_self (fun c hc => isAsciiDigit_not_space (h c hc))

/-- `pyInt?` on a nonempty all-digit string returns its value. -/
lemma pyInt?_digits {l : List Char} (hne : l ≠ [])
    (h : ∀ c ∈ l, isAsciiDigit c = true) :
    pyInt? l = some ((natOfDigits l : Int)) := by
  unfold pyInt?
  rw [pyStrip_digits h]
  cases l with
  | nil => exact absurd rfl hne
  | cons c t =>
    have hc : isAsciiDigit c = true := h c (List.mem_cons_self c t)
    have hcm : c ≠ '-' := by
      intro hEq; rw [hEq] at hc; exact absurd hc (by decide)
    have hcp : c ≠ '+' := by
      intro hEq; rw [hEq] at hc; exact absurd hc (by decide)
    simp only [if_neg hcm, if_neg hcp]
    rw [digitsToNat?, if_pos ⟨List.cons_ne_nil c t, List.all_eq_true.mpr (h ·)⟩]
    rfl

/-- Claim C1: for every fractional digit string with fewer than three digits,
the milliseconds conversion in `parse_timestamp` right-pads it with zeros to
exactly 3 digits and reads the result as an integer count of milliseconds, so
a fraction is interpreted by digit position and not by magnitude; in
particular `parse_timestamp "0:05.1"` is exactly `5.1` seconds (the fraction
`"1"` becomes `"100"` ms), and a seconds field of `"1.5"` contributes 500 ms
rather than 5 ms. -/
theorem c1_fraction_pad :
    (∀ f : List Char, f ≠ [] → (∀ c ∈ f, isAsciiDigit c = true) → f.length < 3 →
      fracToMs f = some ((natOfDigits f : Int) * 10 ^ (3 - f.length)))
    ∧ parse_timestamp ("0:05.1") = some (51 / 10)
    ∧ parse_timestamp ("0:01.5") = some (3 / 2) := by
  refine ⟨?_, ?_, ?_⟩
  · intro f hne hdig _hlen
    unfold fracToMs pyLjust
    have hrep : ∀ c ∈ List.replicate (3 - f.length) '0', isAsciiDigit c = true := by
      intro c hc
      rw [List.eq_of_mem_replicate hc]
      decide
    have hall : ∀ c ∈ f ++ List.replicate (3 - f.length) '0', isAsciiDigit c = true := by
      intro c hc
      rcases List.mem_append.mp hc with h1 | h2
      · exact hdig c h1
      · exact hrep c h2
    have happ : f ++ List.replicate (3 - f.length) '0' ≠ [] := by
      intro hEq
      exact hne (List.append_eq_nil.mp hEq).1
    rw [pyInt?_digits happ hall, natOfDigits_append, natOfDigits_replicate_zero,
      List.length_replicate]
    push_cast
    ring_nf
  · have h1 : parse_timestamp ("0:05.1")
        = some ((((0 : Int) * 3600 + (0 : Int) * 60 + (5 : Int) : Int) : ℚ)
            + ((100 : Int) : ℚ) / 1000) := rfl
    rw [h1]
    norm_num
  · have h1 : parse_timestamp ("0:01.5")
        = some ((((0 : Int) * 3600 + (0 : Int) * 60 + (1 : Int) : Int) : ℚ)
            + ((500 : Int) : ℚ) / 1000) := rfl
    rw [h1]
    norm_num

/-- Witness for C1 at the one-digit fraction `"1"`. -/
theorem c1_fraction_pad_witness :
    fracToMs (('1') :: []) =
      some ((natOfDigits (('1') :: []) : Int) * 10 ^ (3 - (('1') :: []).length)) := by
  have h := c1_fraction_pad.1 (('1') :: []) (by decide) (by decide) (by decide)
  exact h

/-- Claim C10: fractional parts longer than three digits are neither truncated
nor rejected: the padding is a no-op and the whole fractional digit string is
converted to an integer (later divided by 1000), so `"0:01.2345"` parses to
`1 + 2345/1000 = 3.345` seconds. -/
theorem c10_long_fraction :
    (∀ f : List Char, (∀ c ∈ f, isAsciiDigit c = true) → 3 < f.length →
      fracToMs f = some ((natOfDigits f : Int)))
    ∧ parse_timestamp ("0:01.2345") = some (669 / 200) := by
  refine ⟨?_, ?_⟩
  · intro f hdig hlen
    unfold fracToMs pyLjust
    have h0 : 3 - f.length = 0 := by omega
    rw [h0, List.replicate_zero, List.append_nil]
    have hne : f ≠ [] := by
      intro hEq
      rw [hEq] at hlen
      simp at hlen
    exact pyInt?_digits hne hdig
  · have h1 : parse_timestamp ("0:01.2345")
        = some ((((0 : Int) * 3600 + (0 : Int) * 60 + (1 : Int) : Int) : ℚ)
            + ((2345 : Int) : ℚ) / 1000) := rfl
    rw [h1]
    norm_num

/-- Witness for C10 at the four-digit fraction `"2345"`. -/
theorem c10_long_fraction_witness :
    fracToMs (('2') :: ('3') :: ('4') :: ('5') :: []) =
      some ((natOfDigits (('2') :: ('3') :: ('4') :: ('5') :: []) : Int)) := by
  have h := c10_long_fraction.1 (('2') :: ('3') :: ('4') :: ('5') :: []) (by decide) (by decide)
  exact h

/-! ### Theorems for C8 -/

/-- Claim C8: the planner selects exactly the ids of tracks whose type is
`audio` and whose language is the target one: on the two-track example,
target `eng` selects `[1]` and target `fre` selects none at all, in which
case the file is skipped with a warning and no output is produced; every
file in a batch still gets its own outcome, so processing continues. -/
theorem c8_track_selection :
    (∀ (tracks : List Track) (language : List Char) (i : Int),
      i ∈ audio_tracks_to_remove tracks language ↔
        ∃ t ∈ tracks, t.id = i ∧ t.type = ("audio").data ∧ t.language = language)
    ∧ audio_tracks_to_remove exTracks (("eng").data) = [1]
    ∧ process_file exTracks (("eng").data) = FileAction.remove [1]
    ∧ audio_tracks_to_remove exTracks (("fre").data) = []
    ∧ process_file exTracks (("fre").data) = FileAction.skipWarning
    ∧ (∀ (files : List (List Track)) (language : List Char),
        (process_files files language).length = files.length) := by
  refine ⟨?_, by rfl, by rfl, by rfl, by rfl, ?_⟩
  · intro tracks language i
    simp only [audio_tracks_to_remove, List.mem_map, List.mem_filter,
      decide_eq_true_eq]
    constructor
    · rintro ⟨t, ⟨ht, h1, h2⟩, rfl⟩
      exact ⟨t, ht, rfl, h1, h2⟩
    · rintro ⟨t, ht, rfl, h1, h2⟩
      exact ⟨t, ⟨ht, h1, h2⟩, rfl⟩
  · intro files language
    simp [process_files]

/-! ### Theorems for C5 and C9 -/

lemma optionMapList_eq_none {α β : Type} (f : α → Option β) {l : List α} {a : α}
    (ha : a ∈ l) (hf : f a = none) : optionMapList f l = none := by
  induction l with
  | nil => cases ha
  | cons x xs ih =>
    rcases List.mem_cons.mp ha with rfl | hmem
    · rw [optionMapList, hf]
    · rw [optionMapList]
      cases hx : f x with
      | none => rfl
      | some b => rw [ih hmem]

/-- Claim C5 counterexample: the selection token `"0"` is out of range for
1-based indexing, yet `select_chapters` does not raise an index error: on the
three-chapter list it succeeds and returns the last chapter. -/
theorem c5_counterexample :
    select_chapters exChapters ("0") = some [⟨("C").data, 2, 3⟩]
    ∧ select_chapters exChapters ("0") ≠ none := by
  exact ⟨rfl, by intro h; cases ((rfl : select_chapters exChapters ("0") = _).symm.trans h)⟩

/-- Claim C5 as amended: chapters come back in the order the user typed
(`"2,1"` gives `[B, A]`), non-numeric tokens are silently ignored, and any
numeric token strictly greater than the chapter count raises an index error
that propagates; the token `"0"`, however, is also out of the 1-based range
but selects the last chapter instead of raising (Python `-1` indexing, see
the C9 theorem). -/
theorem c5_amended :
    select_chapters exChapters ("2,1") = some [⟨("B").data, 1, 2⟩, ⟨("A").data, 0, 1⟩]
    ∧ select_chapters exChapters ("2,x,1") = some [⟨("B").data, 1, 2⟩, ⟨("A").data, 0, 1⟩]
    ∧ select_chapters exChapters ("5") = none
    ∧ (∀ (chapters : List Chapter) (s : String), ∀ tok ∈ splitOnChar ',' s.data,
        pyStrip tok ≠ [] → (pyStrip tok).all isAsciiDigit = true →
        (chapters.length : Int) < (natOfDigits (pyStrip tok) : Int) →
        select_chapters chapters s = none) := by
  refine ⟨by rfl, by rfl, by rfl, ?_⟩
  intro chapters s tok htok hne hdig hgt
  rw [select_chapters]
  apply optionMapList_eq_none (a := (natOfDigits (pyStrip tok) : Int) - 1)
  · apply List.mem_filterMap.mpr
    exact ⟨tok, htok, by rw [if_pos ⟨hne, hdig⟩]⟩
  · rw [pyIndex, if_neg (by omega), if_neg (by omega)]

/-- Witness for C5 (the out-of-range clause) on an empty chapter list and
token `"7"`. -/
theorem c5_amended_witness :
    select_chapters [] ("7") = none := by
  have h := c5_amended.2.2.2 [] ("7") (('7') :: []) (by decide) (by decide)
    (by decide) (by decide)
  exact h

/-- Claim C9: on every nonempty chapter list the selection token `"0"` passes
the numeric filter, is mapped to index `-1`, and returns the last chapter
rather than raising an index error. -/
theorem c9_zero_token_selects_last :
    ∀ (chapters : List Chapter) (h : chapters ≠ []),
      select_chapters chapters ("0") = some [chapters.getLast h] := by
  intro chapters h
  have hlen : 0 < chapters.length := List.length_pos.mpr h
  show optionMapList (pyIndex chapters) [(natOfDigits (('0') :: []) : Int) - 1] = _
  have hp : pyIndex chapters ((natOfDigits (('0') :: []) : Int) - 1)
      = some (chapters.getLast h) := by
    have h0 : (natOfDigits (('0') :: []) : Int) = 0 := by decide
    rw [pyIndex, if_pos (by omega)]
    rw [if_pos (by constructor <;> omega)]
    have ht : (((natOfDigits (('0') :: []) : Int) - 1) + chapters.length).toNat
        = chapters.length - 1 := by
      omega
    rw [ht, List.get?_eq_getElem?, ← List.getLast?_eq_getElem?,
      List.getLast?_eq_getLast_of_ne_nil h]
  rw [optionMapList, hp, optionMapList]

/-- Witness for C9 on a one-chapter list. -/
theorem c9_zero_token_selects_last_witness :
    select_chapters [(⟨("X").data, 0, 1⟩ : Chapter)] ("0")
      = some [(⟨("X").data, 0, 1⟩ : Chapter)] := by
  have h := c9_zero_token_selects_last [⟨("X").data, 0, 1⟩] (by simp)
  exact h

/-! ### Theorems for C7 -/

/-- Claim C7 counterexample: on 3 blocks versus 2 translations the merge does
fail and writes nothing, but the error is one fixed message that contains no
digit and does not depend on the two counts, so it does not name them. -/
theorem c7_counterexample :
    merge_srt_with_translation exBlocks exTxts = Except.error countMismatchMsg
    ∧ merge_srt_with_translation (exBlocks.take 1) [] = Except.error countMismatchMsg
    ∧ countMismatchMsg.all (fun c => !(isAsciiDigit c)) = true := by
  exact ⟨rfl, rfl, by decide⟩

/-- Claim C7 as amended: a count mismatch fails with the fixed count-mismatch
`ValueError` message (which does not name the two counts) before any output
is written; with matching counts the output pairs each original block's index
label and timing line, in order, with the replacement text at the same
position. -/
theorem c7_amended :
    (∀ (o : List SrtBlock) (t : List (List Char)), o.length ≠ t.length →
      merge_srt_with_translation o t = Except.error countMismatchMsg)
    ∧ (∀ (o : List SrtBlock) (t : List (List Char)), o.length = t.length →
      ∀ (i : Nat) (b : SrtBlock) (tr : List Char),
        o.get? i = some b → t.get? i = some tr →
        ∃ r, merge_srt_with_translation o t = Except.ok r
          ∧ r.get? i = some ⟨b.num, b.time, tr⟩)
    ∧ merge_srt_with_translation exBlocks (exTxts ++ [("!").data])
      = Except.ok
          [⟨("1").data, ("t1").data, ("hello").data⟩,
           ⟨("2").data, ("t2").data, ("world").data⟩,
           ⟨("3").data, ("t3").data, ("!").data⟩] := by
  refine ⟨?_, ?_, by rfl⟩
  · intro o t hne
    rw [merge_srt_with_translation, if_pos hne]
  · intro o t heq i b tr hb ht
    refine ⟨_, by rw [merge_srt_with_translation, if_neg (by omega)], ?_⟩
    rw [List.get?_zipWith', hb, ht]
    rfl

/-- Witness for C7 (both clauses) at concrete inputs. -/
theorem c7_amended_witness :
    merge_srt_with_translation exBlocks exTxts = Except.error countMismatchMsg
    ∧ ∃ r, merge_srt_with_translation (exBlocks.take 2) exTxts = Except.ok r
        ∧ r.get? 0 = some ⟨("1").data, ("t1").data, ("hello").data⟩ := by
  constructor
  · exact c7_amended.1 exBlocks exTxts (by decide)
  · exact c7_amended.2.1 (exBlocks.take 2) exTxts (by decide) 0 _ _ rfl rfl

/-! ### Theorems for C4 -/

/-- Claim C4: with exactly one timestamp pair the analyzer reports mean and
median (both the single delay), reports no standard deviation, skips the
stdev-based classification, and recommends the single delay itself as the
offset; in general the standard deviation exists exactly when there are at
least two samples; on the single delay `[0.020]` it omits stdev and
recommends offset `0.020`. -/
theorem c4_single_sample :
    (∀ a b : ℚ, analyze_sync_discrepancies [(a, b)] =
      some ⟨1, b - a, b - a, none, none, some (b - a)⟩)
    ∧ (∀ (l : List (ℚ × ℚ)) (s : AnalysisSummary),
        analyze_sync_discrepancies l = some s → (s.stdevSq.isSome ↔ 2 ≤ s.count))
    ∧ analyze_sync_discrepancies [((0 : ℚ), 1 / 50)] =
      some ⟨1, 1 / 50, 1 / 50, none, none, some (1 / 50)⟩ := by
  have hA : ∀ a b : ℚ, analyze_sync_discrepancies [(a, b)] =
      some ⟨1, b - a, b - a, none, none, some (b - a)⟩ := by
    intro a b
    rw [analyze_sync_discrepancies]
    simp [listMean, listMedian, sortQ, insertSorted]
  refine ⟨hA, ?_, by have h := hA 0 (1 / 50); simpa using h⟩
  intro l s hs
  rcases hmap : l.map (fun p => p.2 - p.1) with _ | ⟨d, ds⟩ <;>
    rw [analyze_sync_discrepancies, hmap] at hs
  · cases hs
  · injection hs with h2
    subst h2
    by_cases h1 : 1 < (d :: ds).length <;> simp [h1] <;> omega

/-- Witness for C4 (the stdev-only-for-two-samples clause) at the concrete
single-pair input. -/
theorem c4_single_sample_witness :
    ((⟨1, 1 / 50, 1 / 50, none, none, some (1 / 50)⟩ : AnalysisSummary).stdevSq.isSome
      ↔ 2 ≤ (⟨1, 1 / 50, 1 / 50, none, none, some (1 / 50)⟩ : AnalysisSummary).count) :=
  c4_single_sample.2.1 [((0 : ℚ), 1 / 50)]
    ⟨1, 1 / 50, 1 / 50, none, none, some (1 / 50)⟩ c4_single_sample.2.2

/-! ### Theorems for C6 -/

lemma metaChapters_length (cum : ℚ) (l : List Chapter) :
    (metaChapters cum l).length = l.length := by
  induction l generalizing cum with
  | nil => rfl
  | cons ch rest ih => simp [metaChapters, ih]

lemma metaChapters_head (cum : ℚ) (l : List Chapter) (r : MetaChapter)
    (h : (metaChapters cum l).head? = some r) :
    r.q_start = cum ∧ r.start_ms = pyTrunc (cum * 1000) := by
  cases l with
  | nil => cases h
  | cons ch rest =>
    rw [metaChapters, List.head?_cons] at h
    injection h with h2
    subst h2
    exact ⟨rfl, rfl⟩

lemma metaChapters_fields (l : List Chapter) :
    ∀ (cum : ℚ) (i : Nat) (r : MetaChapter) (ch : Chapter),
      (metaChapters cum l).get? i = some r → l.get? i = some ch →
      r.q_end - r.q_start = ch.end_time - ch.start_time
      ∧ r.title = ch.title ∧ r.timebase_den = 1000
      ∧ r.start_ms = pyTrunc (r.q_start * 1000)
      ∧ r.end_ms = pyTrunc (r.q_end * 1000) := by
  induction l with
  | nil => intro cum i r ch hr _; rw [metaChapters] at hr; cases hr
  | cons c0 rest ih =>
    intro cum i r ch hr hch
    cases i with
    | zero =>
      rw [metaChapters, List.get?_cons_zero] at hr
      rw [List.get?_cons_zero] at hch
      injection hr with hr2
      injection hch with hch2
      subst hr2
      subst hch2
      refine ⟨by ring, rfl, rfl, rfl, rfl⟩
    | succ n =>
      rw [metaChapters, List.get?_cons_succ] at hr
      rw [List.get?_cons_succ] at hch
      exact ih _ n r ch hr hch

lemma metaChapters_adjacent (l : List Chapter) :
    ∀ (cum : ℚ) (i : Nat) (r r2 : MetaChapter),
      (metaChapters cum l).get? i = some r →
      (metaChapters cum l).get? (i + 1) = some r2 →
      r2.q_start = r.q_end ∧ r2.start_ms = r.end_ms := by
  induction l with
  | nil => intro cum i r r2 hr _; rw [metaChapters] at hr; cases hr
  | cons c0 rest ih =>
    intro cum i r r2 hr hr2
    cases i with
    | zero =>
      rw [metaChapters, List.get?_cons_zero] at hr
      rw [metaChapters, List.get?_cons_succ] at hr2
      injection hr with hr'
      subst hr'
      have hh : (metaChapters (cum + (c0.end_time - c0.start_time)) rest).head? = some r2 := by
        rw [← List.get?_zero]
        exact hr2
      have hprops := metaChapters_head _ rest r2 hh
      exact ⟨hprops.1, hprops.2⟩
    | succ n =>
      rw [metaChapters, List.get?_cons_succ] at hr
      rw [metaChapters, List.get?_cons_succ] at hr2
      exact ih _ n r r2 hr hr2

/-- Claim C6: the chapter-metadata artifact lays the selected chapters
back-to-back on a zero-based output timeline in a 1/1000 timebase — the
first block starts at 0 (both as a rational time and as the emitted
`START` integer), each block's `START` equals the previous block's `END`,
and each block's duration equals the chapter's `end_time - start_time` —
while the concat-list artifact has one entry per chapter carrying the
absolute source path and the chapter's original, untouched `start_time`
and `end_time`. -/
theorem c6_artifacts :
    ∀ (selected : List Chapter) (path : List Char),
      ((create_ffmpeg_metadata_file selected).length = selected.length)
      ∧ (∀ r, (create_ffmpeg_metadata_file selected).head? = some r →
          r.q_start = 0 ∧ r.start_ms = 0)
      ∧ (∀ (i : Nat) (r r2 : MetaChapter),
          (create_ffmpeg_metadata_file selected).get? i = some r →
          (create_ffmpeg_metadata_file selected).get? (i + 1) = some r2 →
          r2.q_start = r.q_end ∧ r2.start_ms = r.end_ms)
      ∧ (∀ (i : Nat) (r : MetaChapter) (ch : Chapter),
          (create_ffmpeg_metadata_file selected).get? i = some r →
          selected.get? i = some ch →
          r.q_end - r.q_start = ch.end_time - ch.start_time
          ∧ r.title = ch.title ∧ r.timebase_den = 1000
          ∧ r.start_ms = pyTrunc (r.q_start * 1000)
          ∧ r.end_ms = pyTrunc (r.q_end * 1000))
      ∧ (∀ i : Nat, (create_ffmpeg_concat_file selected path).get? i =
          (selected.get? i).map (fun ch => ⟨path, ch.start_time, ch.end_time⟩)) := by
  intro selected path
  refine ⟨metaChapters_length 0 selected, ?_, ?_, ?_, ?_⟩
  · intro r hr
    have h := metaChapters_head 0 selected r hr
    refine ⟨h.1, ?_⟩
    rw [h.2]
    norm_num [pyTrunc]
  · intro i r r2 hr hr2
    exact metaChapters_adjacent selected 0 i r r2 hr hr2
  · intro i r ch hr hch
    exact metaChapters_fields selected 0 i r ch hr hch
  · intro i
    rw [create_ffmpeg_concat_file, List.get?_map]

/-- Witness for C6 (first-block-at-zero clause) on the two-chapter example. -/
theorem c6_artifacts_witness :
    MetaChapter.q_start
        ⟨0, 0 + ((1 : ℚ) - 0), 1000, pyTrunc ((0 : ℚ) * 1000),
          pyTrunc ((0 + ((1 : ℚ) - 0)) * 1000), ("A").data⟩ = 0
    ∧ MetaChapter.start_ms
        ⟨0, 0 + ((1 : ℚ) - 0), 1000, pyTrunc ((0 : ℚ) * 1000),
          pyTrunc ((0 + ((1 : ℚ) - 0)) * 1000), ("A").data⟩ = 0 :=
  (c6_artifacts demoSel (("p").data)).2.1
    ⟨0, 0 + ((1 : ℚ) - 0), 1000, pyTrunc ((0 : ℚ) * 1000),
      pyTrunc ((0 + ((1 : ℚ) - 0)) * 1000), ("A").data⟩ rfl

/-! ### Theorems for C3 -/

lemma readLinesFrom_pairs (n : Nat) (lines : List (List Char)) :
    (readLinesFrom n lines).pairs = lines.filterMap linePair? := by
  induction lines generalizing n with
  | nil => rfl
  | cons line rest ih =>
    rw [readLinesFrom, List.filterMap_cons]
    cases hl : lineOutcome line with
    | skip => simp [linePair?, hl, ih]
    | pair p => simp [linePair?, hl, ih]
    | report => simp [linePair?, hl, ih]

lemma readLinesFrom_skipped (n : Nat) (lines : List (List Char)) :
    (readLinesFrom n lines).skipped =
      (numberFrom n lines).filterMap (fun p => lineReport? p.1 p.2) := by
  induction lines generalizing n with
  | nil => rfl
  | cons line rest ih =>
    rw [readLinesFrom, numberFrom, List.filterMap_cons]
    cases hl : lineOutcome line with
    | skip => simp [lineReport?, hl, ih]
    | pair p => simp [lineReport?, hl, ih]
    | report => simp [lineReport?, hl, ih]

/-- Claim C3 counterexample: on the four-line example file exactly one line
is reported as skipped (line 4, `"bad line"`), not two — the comment line
and the blank line are skipped silently without any report — while the one
timestamp pair is still produced. -/
theorem c3_counterexample :
    (read_timestamps_from_file demoLines).skipped.length = 1
    ∧ ¬((read_timestamps_from_file demoLines).skipped.length = 2) := by
  have h : (read_timestamps_from_file demoLines).skipped.length = 1 := rfl
  exact ⟨h, by rw [h]; decide⟩

/-- Claim C3 as amended: on the four-line example file exactly one
TimestampPair is produced, with delay 0.5 s; the comment and blank lines are
skipped silently; exactly one line is reported as skipped, with its line
number (4) and content (`"bad line"`); and in general the pairs are exactly
the per-line parses in file order while the reported lines are exactly the
non-blank, non-comment lines that fail to match or to parse, each with its
1-based line number — so a bad line never aborts the run. -/
theorem c3_amended :
    (read_timestamps_from_file demoLines).pairs = [(1, 3 / 2)]
    ∧ (read_timestamps_from_file demoLines).pairs.head?.map (fun p => p.2 - p.1)
        = some (1 / 2)
    ∧ (read_timestamps_from_file demoLines).skipped = [(4, ("bad line").data)]
    ∧ (∀ lines : List (List Char),
        (read_timestamps_from_file lines).pairs = lines.filterMap linePair?)
    ∧ (∀ lines : List (List Char),
        (read_timestamps_from_file lines).skipped =
          (numberFrom 1 lines).filterMap (fun p => lineReport? p.1 p.2)) := by
  have hpairs : (read_timestamps_from_file demoLines).pairs
      = [((((0 : Int) * 3600 + (0 : Int) * 60 + (1 : Int) : Int) : ℚ)
            + ((0 : Int) : ℚ) / 1000,
          (((0 : Int) * 3600 + (0 : Int) * 60 + (1 : Int) : Int) : ℚ)
            + ((500 : Int) : ℚ) / 1000)] := rfl
  have h1 : (read_timestamps_from_file demoLines).pairs = [(1, 3 / 2)] := by
    rw [hpairs]
    norm_num
  refine ⟨h1, ?_, by rfl, fun lines => readLinesFrom_pairs 1 lines,
    fun lines => readLinesFrom_skipped 1 lines⟩
  rw [h1]
  simp
  norm_num

/-! ### Theorems for C2 -/

lemma natDigitsAux_stable : ∀ f1 f2 n : Nat, n < f1 → n < f2 →
    natDigitsAux f1 n = natDigitsAux f2 n := by
  intro f1
  induction f1 with
  | zero => intro f2 n h1 _; omega
  | succ a ih =>
    intro f2 n h1 h2
    cases f2 with
    | zero => omega
    | succ b =>
      simp only [natDigitsAux]
      by_cases hn : n < 10
      · rw [if_pos hn, if_pos hn]
      · rw [if_neg hn, if_neg hn]
        have hd : n / 10 < n := Nat.div_lt_self (by omega) (by omega)
        rw [ih b (n / 10) (by omega) (by omega)]

lemma natDigits_lt10 {n : Nat} (h : n < 10) : natDigits n = [Nat.digitChar n] := by
  rw [natDigits]
  simp only [natDigitsAux]
  rw [if_pos h]

lemma natDigits_ge10 {n : Nat} (h : 10 ≤ n) :
    natDigits n = natDigits (n / 10) ++ [Nat.digitChar (n % 10)] := by
  have h1 : natDigits n = natDigitsAux n (n / 10) ++ [Nat.digitChar (n % 10)] := by
    rw [natDigits]
    simp only [natDigitsAux]
    rw [if_neg (by omega)]
  rw [h1, natDigits]
  have hd : n / 10 < n := Nat.div_lt_self (by omega) (by omega)
  rw [natDigitsAux_stable n (n / 10 + 1) (n / 10) (by omega) (by omega)]

lemma natDigits_ne_nil (n : Nat) : natDigits n ≠ [] := by
  by_cases h : n < 10
  · rw [natDigits_lt10 h]; simp
  · rw [natDigits_ge10 (by omega)]; simp

lemma digitChar_digit {n : Nat} (h : n < 10) : isAsciiDigit (Nat.digitChar n) = true := by
  interval_cases n <;> decide

lemma natDigits_digits (n : Nat) : ∀ c ∈ natDigits n, isAsciiDigit c = true := by
  induction n using Nat.strong_induction_on with
  | _ n ih =>
    by_cases h : n < 10
    · rw [natDigits_lt10 h]
      intro c hc
      rw [List.mem_singleton.mp hc]
      exact digitChar_digit h
    · rw [natDigits_ge10 (by omega)]
      intro c hc
      rcases List.mem_append.mp hc with h1 | h2
      · exact ih (n / 10) (Nat.div_lt_self (by omega) (by omega)) c h1
      · rw [List.mem_singleton.mp h2]
        exact digitChar_digit (Nat.mod_lt n (by omega))

lemma natDigits_length_le : ∀ k n : Nat, 1 ≤ k → n < 10 ^ k →
    (natDigits n).length ≤ k := by
  intro k
  induction k with
  | zero => intro n h _; omega
  | succ k ih =>
    intro n _ hlt
    by_cases h : n < 10
    · rw [natDigits_lt10 h]; simp
    · rw [natDigits_ge10 (by omega), List.length_append]
      have hk : 1 ≤ k := by
        by_contra hk0
        have hke : k = 0 := by omega
        subst hke
        simp at hlt
        omega
      have hdiv : n / 10 < 10 ^ k := by
        rw [Nat.div_lt_iff_lt_mul (by omega : (0 : Nat) < 10)]
        calc n < 10 ^ (k + 1) := hlt
          _ = 10 ^ k * 10 := by ring
      have hlen := ih (n / 10) hk hdiv
      simp
      omega

lemma fmtNatPad_length {n w : Nat} (h : (natDigits n).length ≤ w) :
    (fmtNatPad n w).length = w := by
  rw [fmtNatPad, List.length_append, List.length_replicate]
  omega

lemma fmtNatPad_ne_nil (n w : Nat) : fmtNatPad n w ≠ [] := by
  rw [fmtNatPad]
  intro hEq
  exact natDigits_ne_nil n (List.append_eq_nil.mp hEq).2

lemma fmtNatPad_digits (n w : Nat) : digitsOnly (fmtNatPad n w) := by
  intro c hc
  rcases List.mem_append.mp hc with h1 | h2
  · rw [List.eq_of_mem_replicate h1]; decide
  · exact natDigits_digits n c h2

lemma pyMod_eq_fract (a : ℚ) {b : ℚ} (hb : b ≠ 0) :
    pyMod a b = b * Int.fract (a / b) := by
  rw [pyMod, Int.fract]
  field_simp

lemma pyMod_nonneg (a : ℚ) {b : ℚ} (hb : 0 < b) : 0 ≤ pyMod a b := by
  rw [pyMod_eq_fract a (ne_of_gt hb)]
  exact mul_nonneg hb.le (Int.fract_nonneg _)

lemma pyMod_lt (a : ℚ) {b : ℚ} (hb : 0 < b) : pyMod a b < b := by
  rw [pyMod_eq_fract a (ne_of_gt hb)]
  calc b * Int.fract (a / b) < b * 1 := mul_lt_mul_of_pos_left (Int.fract_lt_one _) hb
    _ = b := mul_one b

lemma fmtMinutes_nonneg (q : ℚ) : 0 ≤ fmtMinutes q := by
  rw [fmtMinutes]
  exact Int.floor_nonneg.mpr (div_nonneg (pyMod_nonneg q (by norm_num)) (by norm_num))

lemma fmtMinutes_lt60 (q : ℚ) : fmtMinutes q < 60 := by
  rw [fmtMinutes, Int.floor_lt]
  rw [div_lt_iff (by norm_num : (0 : ℚ) < 60)]
  have h := pyMod_lt q (b := 3600) (by norm_num)
  push_cast
  linarith

lemma msVal_le {q : ℚ} (h0 : 0 ≤ q) (h60 : q < 60) :
    (round (q * 1000)).toNat ≤ 60000 := by
  have hr : round (q * 1000) ≤ 60000 := by
    rw [round_eq]
    have hlt : q * 1000 + 1 / 2 < ((60001 : Int) : ℚ) := by push_cast; linarith
    have hfl := Int.floor_lt.mpr hlt
    omega
  omega

lemma fmtFixed3_shape {q : ℚ} (h0 : 0 ≤ q) (h60 : q < 60) :
    ∃ i f, fmtFixed3 q = i ++ (('.') :: f) ∧ i.length = 2 ∧ digitsOnly i
      ∧ f.length = 3 ∧ digitsOnly f := by
  refine ⟨fmtNatPad ((round (q * 1000)).toNat / 1000) 2,
    fmtNatPad ((round (q * 1000)).toNat % 1000) 3, rfl, ?_, fmtNatPad_digits _ _,
    ?_, fmtNatPad_digits _ _⟩
  · apply fmtNatPad_length
    apply natDigits_length_le 2 _ (by omega)
    have hle := msVal_le h0 h60
    have hp : (10 : Nat) ^ 2 = 100 := by norm_num
    omega
  · apply fmtNatPad_length
    apply natDigits_length_le 3 _ (by omega)
    have hm : (round (q * 1000)).toNat % 1000 < 1000 := Nat.mod_lt _ (by omega)
    have hp : (10 : Nat) ^ 3 = 1000 := by norm_num
    omega

/-- Claim C2: `parse_timestamp "1:02:03.500"` is 3723.5 seconds and
`format_timestamp 3723.5` is `"1:02:03.500"`; in general (on nonnegative
times) the formatter omits the hour field exactly when the hour component is
zero, producing `M:SS.mmm`, and otherwise produces `H:MM:SS.mmm` — with an
unpadded minutes/hour lead field, a two-digit minutes field when the hour is
present, a two-digit seconds field, and exactly three fractional digits,
matching the parser's digit conventions. -/
theorem c2_roundtrip_and_shape :
    parse_timestamp ("1:02:03.500") = some (7447 / 2)
    ∧ format_timestamp (7447 / 2) = ("1:02:03.500").data
    ∧ (∀ q : ℚ, 0 ≤ q → fmtHours q = 0 → MSshape (format_timestamp q))
    ∧ (∀ q : ℚ, 0 < fmtHours q → HMSshape (format_timestamp q)) := by
  refine ⟨?_, ?_, ?_, ?_⟩
  · have h1 : parse_timestamp ("1:02:03.500")
        = some ((((1 : Int) * 3600 + (2 : Int) * 60 + (3 : Int) : Int) : ℚ)
            + ((500 : Int) : ℚ) / 1000) := rfl
    rw [h1]
    norm_num
  · have e1 : fmtHours (7447 / 2) = 1 := by norm_num [fmtHours]
    have e2 : fmtMinutes (7447 / 2) = 2 := by norm_num [fmtMinutes, pyMod]
    have e3 : fmtSecRem (7447 / 2) = 7 / 2 := by norm_num [fmtSecRem, pyMod]
    rw [format_timestamp, e1, e2, e3]
    rw [if_pos (by omega : (0 : Int) < 1)]
    rw [fmtFixed3]
    rw [show round ((7 / 2 : ℚ) * 1000) = 3500 from by norm_num [round_eq]]
    decide
  · intro q hq h0
    rw [format_timestamp, if_neg (by simp [h0])]
    have h0r : (0 : ℚ) ≤ fmtSecRem q := pyMod_nonneg q (by norm_num)
    have h60r : fmtSecRem q < 60 := pyMod_lt q (by norm_num)
    obtain ⟨i, f, hif, hi2, hid, hf3, hfd⟩ := fmtFixed3_shape h0r h60r
    refine ⟨fmtIntPad (fmtMinutes q) 1, i, f, ?_, ?_, ?_, hi2, hid, hf3, hfd⟩
    · rw [hif]
    · rw [fmtIntPad, if_neg (by have := fmtMinutes_nonneg q; omega)]
      exact fmtNatPad_ne_nil _ _
    · rw [fmtIntPad, if_neg (by have := fmtMinutes_nonneg q; omega)]
      exact fmtNatPad_digits _ _
  · intro q hpos
    rw [format_timestamp, if_pos hpos]
    have h0r : (0 : ℚ) ≤ fmtSecRem q := pyMod_nonneg q (by norm_num)
    have h60r : fmtSecRem q < 60 := pyMod_lt q (by norm_num)
    obtain ⟨i, f, hif, hi2, hid, hf3, hfd⟩ := fmtFixed3_shape h0r h60r
    refine ⟨fmtIntPad (fmtHours q) 1, fmtIntPad (fmtMinutes q) 2, i, f,
      ?_, ?_, ?_, ?_, ?_, hi2, hid, hf3, hfd⟩
    · rw [hif]
    · rw [fmtIntPad, if_neg (by omega)]
      exact fmtNatPad_ne_nil _ _
    · rw [fmtIntPad, if_neg (by omega)]
      exact fmtNatPad_digits _ _
    · rw [fmtIntPad, if_neg (by have := fmtMinutes_nonneg q; omega)]
      apply fmtNatPad_length
      apply natDigits_length_le 2 _ (by omega)
      have hlt := fmtMinutes_lt60 q
      have hnn := fmtMinutes_nonneg q
      have hp : (10 : Nat) ^ 2 = 100 := by norm_num
      omega
    · rw [fmtIntPad, if_neg (by have := fmtMinutes_nonneg q; omega)]
      exact fmtNatPad_digits _ _

/-- Witness for C2: the no-hour shape at `q = 0` and the with-hour shape at
`q = 3723`. -/
theorem c2_roundtrip_and_shape_witness :
    MSshape (format_timestamp (0 : ℚ)) ∧ HMSshape (format_timestamp (3723 : ℚ)) :=
  ⟨c2_roundtrip_and_shape.2.2.1 0 (by norm_num) (by norm_num [fmtHours]),
    c2_roundtrip_and_shape.2.2.2 3723 (by norm_num [fmtHours])⟩
